import Mathlib

/-!
Verification of the OpenAlpha backend services against their specification.

Each Python function under `src/backend/app` that the claims mention is
shallowly embedded as a Lean definition:

* database reads become explicit parameters (the fetched rows / values),
  and fallible reads become `Except` values;
* Python `dict` results become structures with `Option` fields for keys
  that may be absent;
* Python floats become exact rationals (`ℚ`), except where the code takes
  a square root (`np.std`), where the result lives in `ℝ`;
* a table is a `List` of row structures, and a write returns the new table.

The file is ordered with all definitions first and all theorems after.
-/

/-- Embedding of `TierEnum` from `app/models/enums.py` (values `free`, `premium`). -/
inductive TierEnum where
  | free
  | premium
deriving DecidableEq, Repr

/-- Embedding of `RiskLevelEnum` from `app/models/enums.py` (values `low`, `medium`, `high`). -/
inductive RiskLevelEnum where
  | low
  | medium
  | high
deriving DecidableEq, Repr

/-- Result dict of `check_tier_limit` in `app/services/tier_service.py`.
Keys that a branch omits are `none`. -/
structure TierCheckResult where
  allowed : Bool
  reason : Option String
  limit : Option Nat
  remaining : Option Nat
  stock_count : Nat
deriving DecidableEq, Repr

/-- The free-tier stock limit, `FREE_TIER_LIMIT = 5` in `check_tier_limit`. -/
def FREE_TIER_LIMIT : Nat := 5

/-- Embedding of `check_tier_limit` (`app/services/tier_service.py`).
The two awaited database reads inside the `try` block — the user's tier
(`get_user_tier`) and the tracked-stock count — are passed as `Except`
values; an exception in either is caught by the `except` clause, which
returns the fail-closed `tier_check_error` dict. -/
def check_tier_limit (tierRes : Except String TierEnum)
    (countRes : Except String Nat) : TierCheckResult :=
  match tierRes, countRes with
  | Except.ok tier, Except.ok stock_count =>
    if tier = TierEnum.premium then
      { allowed := true, reason := none, limit := none, remaining := none,
        stock_count := stock_count }
    else if stock_count ≥ FREE_TIER_LIMIT then
      { allowed := false, reason := some "free_tier_limit_reached",
        limit := some FREE_TIER_LIMIT, remaining := some 0,
        stock_count := stock_count }
    else
      { allowed := true, reason := none, limit := some FREE_TIER_LIMIT,
        remaining := some (FREE_TIER_LIMIT - stock_count),
        stock_count := stock_count }
  | _, _ =>
    { allowed := false, reason := some "tier_check_error", limit := none,
      remaining := none, stock_count := 0 }

/-- Per-step returns of `calculate_volatility`
(`app/services/recommendation_service.py`): for each consecutive pair of
prices with non-zero prior price, `(p[i] - p[i-1]) / p[i-1]`; pairs whose
prior price is zero are skipped. -/
def priceChanges : List ℚ → List ℚ
  | p0 :: p1 :: rest =>
      (if p0 ≠ 0 then [(p1 - p0) / p0] else []) ++ priceChanges (p1 :: rest)
  | _ => []

/-- Arithmetic mean of a list of rationals (the mean `np.std` subtracts). -/
def listMean (xs : List ℚ) : ℚ := xs.sum / xs.length

/-- Population variance, so that `np.std xs = Real.sqrt (popVariance xs)`. -/
def popVariance (xs : List ℚ) : ℚ :=
  ((xs.map fun x => (x - listMean xs) ^ 2).sum) / xs.length

/-- Embedding of `calculate_volatility`
(`app/services/recommendation_service.py`). The awaited
`get_market_data_history` result is passed as the list of fetched prices
(`prices` in the code is the same list mapped through `float`). The code
returns 0.0 when fewer than 7 points were fetched, when fewer than 2
prices exist (subsumed), or when fewer than 2 valid returns result;
otherwise `np.std` of the returns divided by the 0.1 ceiling, capped at
1.0 by `min` and floored at 0 by `max`. -/
noncomputable def calculate_volatility (market_history : List ℚ) : ℝ :=
  if market_history.length < 7 then 0
  else if market_history.length < 2 then 0
  else if (priceChanges market_history).length < 2 then 0
  else max 0 (min (Real.sqrt (popVariance (priceChanges market_history)) / (0.1 : ℝ)) 1)

/-- Market-conditions component of `calculate_risk_level`
(`app/services/recommendation_service.py`): the optional
`market_conditions["market_volatility"]` value clamped to [0, 1] when
supplied, and the neutral default 0.5 when absent. -/
def marketVolatility (market_conditions : Option ℚ) : ℚ :=
  match market_conditions with
  | some v => max 0 (min 1 v)
  | none => 1 / 2

/-- Weighted risk score of `calculate_risk_level`: volatility times 0.4
plus ML uncertainty `1 - ml_confidence` times 0.4 plus market volatility
times 0.2, then forced into [0, 1] by `max(0.0, min(1.0, ...))`. -/
noncomputable def riskScore (market_history : List ℚ) (ml_confidence : ℚ)
    (market_conditions : Option ℚ) : ℝ :=
  max 0 (min 1 (calculate_volatility market_history * 0.4 +
    ((1 - ml_confidence : ℚ) : ℝ) * 0.4 +
    (marketVolatility market_conditions : ℝ) * 0.2))

/-- Embedding of `calculate_risk_level`
(`app/services/recommendation_service.py`). An `ml_confidence` outside
[0, 1] short-circuits to MEDIUM; otherwise the clamped weighted score is
mapped through the 0.33 / 0.66 thresholds. The stock's fetched market
history (input of the inner `calculate_volatility` call) is passed
explicitly, as is the optional `market_volatility` entry of
`market_conditions`. -/
noncomputable def calculate_risk_level (market_history : List ℚ)
    (ml_confidence : ℚ) (market_conditions : Option ℚ) : RiskLevelEnum :=
  if ¬ (0 ≤ ml_confidence ∧ ml_confidence ≤ 1) then RiskLevelEnum.medium
  else if riskScore market_history ml_confidence market_conditions ≤ 0.33 then
    RiskLevelEnum.low
  else if riskScore market_history ml_confidence market_conditions ≤ 0.66 then
    RiskLevelEnum.medium
  else RiskLevelEnum.high

/-- Candidate dict built for each stock in `generate_recommendations`
(`app/services/recommendation_service.py`). -/
structure Candidate where
  stock_id : Nat
  signal : String
  confidence : ℚ
  sentiment : ℚ
  risk_level : RiskLevelEnum
deriving DecidableEq, Repr

/-- The `risk_rank = {"low": 0, "medium": 1, "high": 2}` dict used as the
tertiary sort key in `generate_recommendations`. -/
def risk_rank : RiskLevelEnum → Nat
  | RiskLevelEnum.low => 0
  | RiskLevelEnum.medium => 1
  | RiskLevelEnum.high => 2

/-- Comparison corresponding to the sort key tuple
`(-confidence, -sentiment, risk_rank[risk_level])` used by
`candidates.sort` in `generate_recommendations`: ascending lexicographic
order on the key tuple, i.e. confidence descending, then sentiment
descending, then risk rank ascending. -/
def candLE (a b : Candidate) : Bool :=
  decide (b.confidence < a.confidence ∨ (a.confidence = b.confidence ∧
    (b.sentiment < a.sentiment ∨ (a.sentiment = b.sentiment ∧
      risk_rank a.risk_level ≤ risk_rank b.risk_level))))

/-- The `candidates.sort(key=...)` step of `generate_recommendations`:
Python's stable sort, embedded as a stable merge sort under `candLE`. -/
def sortCandidates (cs : List Candidate) : List Candidate :=
  cs.mergeSort candLE

/-- The selection step `selected = candidates[: max(0, int(daily_target_count))]`
of `generate_recommendations`, applied after sorting. -/
def select_top (cs : List Candidate) (daily_target_count : Int) : List Candidate :=
  (sortCandidates cs).take (max 0 daily_target_count).toNat

/-- Row of the `sentiment_data` table (`app/models/sentiment_data.py`);
`id` stands for the generated `uuid4`, `timestamp` for the datetime. -/
structure SentimentData where
  id : Nat
  stock_id : Nat
  sentiment_score : ℚ
  source : String
  timestamp : Int
deriving DecidableEq, Repr

/-- The `(stock_id, source, timestamp)` natural-key condition of
`exists_sentiment_record` / `upsert_sentiment_data`
(`app/crud/sentiment_data.py`). -/
def sentimentKeyMatches (stock_id : Nat) (source : String) (timestamp : Int)
    (r : SentimentData) : Bool :=
  r.stock_id == stock_id && r.source == source && r.timestamp == timestamp

/-- Embedding of `exists_sentiment_record` (`app/crud/sentiment_data.py`):
`count(id) > 0` over the rows matching the natural key. -/
def exists_sentiment_record (db : List SentimentData) (stock_id : Nat)
    (source : String) (timestamp : Int) : Bool :=
  decide (0 < db.countP (sentimentKeyMatches stock_id source timestamp))

/-- Embedding of `create_sentiment_data` (`app/crud/sentiment_data.py`):
inserts a fresh row (with generated id `newId`) and returns it together
with the committed table. -/
def create_sentiment_data (db : List SentimentData) (newId stock_id : Nat)
    (sentiment_score : ℚ) (source : String) (timestamp : Int) :
    SentimentData × List SentimentData :=
  let record : SentimentData :=
    { id := newId, stock_id := stock_id, sentiment_score := sentiment_score,
      source := source, timestamp := timestamp }
  (record, db ++ [record])

/-- Embedding of `upsert_sentiment_data` (`app/crud/sentiment_data.py`):
when a row with the `(stock_id, source, timestamp)` key exists it is
fetched with `scalar_one()` and returned with the table unchanged
(`none` models the `scalar_one` exception when the key is not unique);
otherwise `create_sentiment_data` inserts a new row. -/
def upsert_sentiment_data (db : List SentimentData) (newId stock_id : Nat)
    (sentiment_score : ℚ) (source : String) (timestamp : Int) :
    Option (SentimentData × List SentimentData) :=
  if exists_sentiment_record db stock_id source timestamp then
    match db.filter (sentimentKeyMatches stock_id source timestamp) with
    | [r] => some (r, db)
    | _ => none
  else
    some (create_sentiment_data db newId stock_id sentiment_score source timestamp)

/-- Python's `str.upper()` on the basic-latin letters that stock symbols
consist of (Lean's `Char.toUpper` is basic-latin only, like the symbols
stored by this code path). -/
def pyUpper (s : String) : String := String.mk (s.data.map Char.toUpper)

/-- Row of the `stocks` table (`app/models/stock.py`); `id` stands for
the generated `uuid4`. -/
structure Stock where
  id : Nat
  symbol : String
  company_name : String
  sector : Option String
  fortune_500_rank : Option Nat
deriving DecidableEq, Repr

/-- Embedding of `get_stock_by_symbol` (`app/crud/stocks.py`): selects
the row with `upper(symbol) == symbol.upper()`. `scalar_one_or_none` is
modelled as the first match; it is the unique match on every table this
code maintains, since `upsert_stock` never creates a second row for the
same upper-cased symbol. -/
def get_stock_by_symbol (db : List Stock) (symbol : String) : Option Stock :=
  db.find? (fun s => pyUpper s.symbol == pyUpper symbol)

/-- Embedding of `create_stock` (`app/crud/stocks.py`): inserts a row
with the upper-cased symbol and returns it with the committed table. -/
def create_stock (db : List Stock) (newId : Nat) (symbol company_name : String)
    (sector : Option String) (fortune_500_rank : Option Nat) :
    Stock × List Stock :=
  let stock : Stock :=
    { id := newId, symbol := pyUpper symbol, company_name := company_name,
      sector := sector, fortune_500_rank := fortune_500_rank }
  (stock, db ++ [stock])

/-- Embedding of `upsert_stock` (`app/crud/stocks.py`): if a row with the
symbol exists, mutate it in place (always `company_name`; `sector` and
`fortune_500_rank` only when the argument is not `None`) and commit;
otherwise create a new row. The ORM's in-place mutation of the fetched
row becomes a `map` replacing that row in the table. -/
def upsert_stock (db : List Stock) (newId : Nat) (symbol company_name : String)
    (sector : Option String) (fortune_500_rank : Option Nat) :
    Stock × List Stock :=
  match get_stock_by_symbol db symbol with
  | some existing =>
    let updated : Stock :=
      { existing with
        company_name := company_name,
        sector := match sector with | some s => some s | none => existing.sector,
        fortune_500_rank :=
          match fortune_500_rank with
          | some r => some r
          | none => existing.fortune_500_rank }
    (updated, db.map (fun s => if s = existing then updated else s))
  | none => create_stock db newId symbol company_name sector fortune_500_rank

/-- Python's `str.lower()` on basic-latin letters (`text.lower()` in
`_keyword_sentiment_score`). -/
def pyLower (s : String) : String := String.mk (s.data.map Char.toLower)

/-- Python's `str.count(sub)`: non-overlapping occurrences of `needle`,
scanning left to right and skipping past each match. The fuel argument
(instantiated with the haystack length by `countOcc`) only bounds the
recursion; every step consumes at least one character, so it never runs
out before the scan ends. -/
def countOccFuel (needle : List Char) : Nat → List Char → Nat
  | 0, _ => 0
  | _, [] => 0
  | fuel + 1, c :: rest =>
      if needle ≠ [] ∧ needle.isPrefixOf (c :: rest) then
        1 + countOccFuel needle fuel ((c :: rest).drop needle.length)
      else
        countOccFuel needle fuel rest

/-- Python's `text.count(keyword)` over char lists. -/
def countOcc (needle hay : List Char) : Nat := countOccFuel needle hay.length hay

/-- The fixed positive keyword list of `_keyword_sentiment_score`
(`app/services/sentiment_service.py`). -/
def positive_keywords : List String :=
  ["gain", "beat", "surge", "rally", "bullish", "up", "strong"]

/-- The fixed negative keyword list of `_keyword_sentiment_score`
(`app/services/sentiment_service.py`). -/
def negative_keywords : List String :=
  ["loss", "miss", "drop", "plunge", "bearish", "down", "weak"]

/-- The `pos` total of `_keyword_sentiment_score`: summed occurrence
counts of the positive keywords in the lowered text. -/
def posCount (text_lower : List Char) : Nat :=
  (positive_keywords.map (fun k => countOcc k.data text_lower)).sum

/-- The `neg` total of `_keyword_sentiment_score`: summed occurrence
counts of the negative keywords in the lowered text. -/
def negCount (text_lower : List Char) : Nat :=
  (negative_keywords.map (fun k => countOcc k.data text_lower)).sum

/-- Embedding of `_keyword_sentiment_score`
(`app/services/sentiment_service.py`): keyword counting over the
lowercased text, neutral 0.0 when both totals are zero, otherwise
`(pos - neg) / max(pos + neg, 1)` clamped to [-1, 1]. -/
def _keyword_sentiment_score (text : String) : ℚ :=
  let text_lower := (pyLower text).data
  let pos := posCount text_lower
  let neg := negCount text_lower
  if pos = 0 ∧ neg = 0 then 0
  else max (-1) (min 1 (((pos : ℚ) - (neg : ℚ)) / ((max (pos + neg) 1 : ℕ) : ℚ)))

/-- Python's `sub in s` on strings: substring containment, used by the
`user.email in password` rule. -/
def pyInStr (needle hay : String) : Bool := decide (needle.data <:+: hay.data)

/-- Python's `str.isalpha()` restricted to ASCII letters: non-empty and
all alphabetic. -/
def pyIsAlpha (s : String) : Bool := !s.data.isEmpty && s.data.all Char.isAlpha

/-- Python's `str.isnumeric()` restricted to ASCII digits: non-empty and
all digits. -/
def pyIsNumeric (s : String) : Bool := !s.data.isEmpty && s.data.all Char.isDigit

/-- Embedding of `UserManager.validate_password`
(`app/users/manager.py`). The `conditions` dict preserves insertion
order (length rule, then the e-mail rule when `user.email` is truthy,
then the alpha-only and numeric-only rules); all condition values are
computed, and the loop raises `InvalidPasswordException` with the first
violated rule's message. `none` means the password is accepted. -/
def validate_password (password : String) (email : String) : Option String :=
  let conditions : List (String × Bool) :=
    [("Password should be at least 8 characters",
      decide (password.length < 8))] ++
    (if email ≠ "" then
      [("Password should not contain e-mail", pyInStr email password)]
     else []) ++
    [("Password should contain at least one number or special characters(@#*)",
      pyIsAlpha password),
     ("Password should not contain only numeric values", pyIsNumeric password)]
  Option.map Prod.fst (conditions.find? (fun c => c.2))

/-!
Theorems.
-/

/-- Upper-casing a character twice is the same as doing it once. -/
theorem toUpper_idem (c : Char) : c.toUpper.toUpper = c.toUpper := by
  simp only [Char.toUpper]
  by_cases h : c.toNat ≥ 97 ∧ c.toNat ≤ 122
  · rw [if_pos h]
    have hv : Nat.isValidChar (c.toNat - 32) := Or.inl (by omega)
    have ht : (Char.ofNat (c.toNat - 32)).toNat = c.toNat - 32 := by
      rw [Char.ofNat, dif_pos hv]
      rfl
    rw [ht, if_neg (by omega)]
  · rw [if_neg h, if_neg h]

/-- Upper-casing a string is idempotent. -/
theorem pyUpper_idem (s : String) : pyUpper (pyUpper s) = pyUpper s := by
  unfold pyUpper
  have h : Char.toUpper ∘ Char.toUpper = Char.toUpper := funext toUpper_idem
  show String.mk ((s.data.map Char.toUpper).map Char.toUpper) = _
  rw [List.map_map, h]

/-- The Boolean candidate comparison unfolded to its defining proposition. -/
theorem candLE_iff {a b : Candidate} :
    candLE a b = true ↔
      (b.confidence < a.confidence ∨ (a.confidence = b.confidence ∧
        (b.sentiment < a.sentiment ∨ (a.sentiment = b.sentiment ∧
          risk_rank a.risk_level ≤ risk_rank b.risk_level)))) := by
  simp [candLE]

/-- The candidate comparison is transitive. -/
theorem candLE_trans (a b c : Candidate) (h₁ : candLE a b = true)
    (h₂ : candLE b c = true) : candLE a c = true := by
  rw [candLE_iff] at h₁ h₂ ⊢
  rcases h₁ with h1 | ⟨e1, h1⟩
  · rcases h₂ with h2 | ⟨e2, h2⟩
    · exact Or.inl (lt_trans h2 h1)
    · exact Or.inl (e2 ▸ h1)
  · rcases h₂ with h2 | ⟨e2, h2⟩
    · exact Or.inl (by rw [e1]; exact h2)
    · refine Or.inr ⟨e1.trans e2, ?_⟩
      rcases h1 with s1 | ⟨f1, r1⟩
      · rcases h2 with s2 | ⟨f2, r2⟩
        · exact Or.inl (lt_trans s2 s1)
        · exact Or.inl (f2 ▸ s1)
      · rcases h2 with s2 | ⟨f2, r2⟩
        · exact Or.inl (by rw [f1]; exact s2)
        · exact Or.inr ⟨f1.trans f2, le_trans r1 r2⟩

/-- The candidate comparison is total. -/
theorem candLE_total (a b : Candidate) : (candLE a b || candLE b a) = true := by
  simp only [Bool.or_eq_true, candLE_iff]
  rcases lt_trichotomy a.confidence b.confidence with h | h | h
  · exact Or.inr (Or.inl h)
  · rcases lt_trichotomy a.sentiment b.sentiment with hs | hs | hs
    · exact Or.inr (Or.inr ⟨h.symm, Or.inl hs⟩)
    · rcases Nat.le_total (risk_rank a.risk_level) (risk_rank b.risk_level) with hr | hr
      · exact Or.inl (Or.inr ⟨h, Or.inr ⟨hs, hr⟩⟩)
      · exact Or.inr (Or.inr ⟨h.symm, Or.inr ⟨hs.symm, hr⟩⟩)
    · exact Or.inl (Or.inr ⟨h, Or.inl hs⟩)
  · exact Or.inl (Or.inl h)

/-- C5: the surviving candidate pool is sorted by confidence descending,
then sentiment descending, then risk level ascending (LOW < MEDIUM <
HIGH), the sorted pool is a permutation of the input pool, and exactly
the first `max 0 daily_target_count` entries of that order are selected;
on the concrete pool with confidences 0.80 / 0.95 / 0.80 where the last
0.80 candidate has strictly lower risk (equal sentiment), the top-2
selection is the 0.95 candidate followed by the lower-risk 0.80 one. -/
theorem generate_recommendations_select_spec :
    (∀ (cs : List Candidate) (n : Int),
      select_top cs n = (sortCandidates cs).take (max 0 n).toNat ∧
      (sortCandidates cs).Perm cs ∧
      (sortCandidates cs).Pairwise (fun a b =>
        b.confidence < a.confidence ∨ (a.confidence = b.confidence ∧
          (b.sentiment < a.sentiment ∨ (a.sentiment = b.sentiment ∧
            risk_rank a.risk_level ≤ risk_rank b.risk_level))))) ∧
    select_top
      [⟨1, "buy", 4/5, 0, RiskLevelEnum.medium⟩,
       ⟨2, "buy", 19/20, 0, RiskLevelEnum.high⟩,
       ⟨3, "buy", 4/5, 0, RiskLevelEnum.low⟩] 2 =
      [⟨2, "buy", 19/20, 0, RiskLevelEnum.high⟩,
       ⟨3, "buy", 4/5, 0, RiskLevelEnum.low⟩] := by
  constructor
  · intro cs n
    refine ⟨rfl, List.mergeSort_perm cs candLE, ?_⟩
    exact (List.sorted_mergeSort candLE_trans candLE_total cs).imp
      (fun h => candLE_iff.mp h)
  · norm_num [select_top, sortCandidates, List.mergeSort, List.splitInTwo,
      List.splitAt, List.splitAt.go, List.merge, candLE, risk_rank, Int.toNat]

/-- C1: a premium user always gets `allowed=true` with `limit=None` and
`remaining=None` regardless of the tracked-stock count; a free user with
tracked-stock count `n < 5` gets `allowed=true, limit=5, remaining=5-n,
stock_count=n`; a free user with `n ≥ 5` gets `allowed=false,
reason='free_tier_limit_reached', limit=5, remaining=0, stock_count=n`. -/
theorem check_tier_limit_spec (tier : TierEnum) (n : Nat) :
    (tier = TierEnum.premium →
      check_tier_limit (Except.ok tier) (Except.ok n) =
        { allowed := true, reason := none, limit := none, remaining := none,
          stock_count := n }) ∧
    (tier = TierEnum.free → n < 5 →
      check_tier_limit (Except.ok tier) (Except.ok n) =
        { allowed := true, reason := none, limit := some 5,
          remaining := some (5 - n), stock_count := n }) ∧
    (tier = TierEnum.free → 5 ≤ n →
      check_tier_limit (Except.ok tier) (Except.ok n) =
        { allowed := false, reason := some "free_tier_limit_reached",
          limit := some 5, remaining := some 0, stock_count := n }) := by
  refine ⟨fun h => ?_, fun h hn => ?_, fun h hn => ?_⟩
  · subst h; simp [check_tier_limit]
  · subst h
    simp only [check_tier_limit, FREE_TIER_LIMIT]
    rw [if_neg (by simp), if_neg (by omega)]
  · subst h
    simp only [check_tier_limit, FREE_TIER_LIMIT]
    rw [if_neg (by simp), if_pos hn]

/-- Witness for C1: evaluates the three branches at concrete inputs
(premium with 10 tracked stocks, free with 3, free with 7). -/
theorem check_tier_limit_spec_witness :
    check_tier_limit (Except.ok TierEnum.premium) (Except.ok 10) =
      { allowed := true, reason := none, limit := none, remaining := none,
        stock_count := 10 } ∧
    check_tier_limit (Except.ok TierEnum.free) (Except.ok 3) =
      { allowed := true, reason := none, limit := some 5, remaining := some 2,
        stock_count := 3 } ∧
    check_tier_limit (Except.ok TierEnum.free) (Except.ok 7) =
      { allowed := false, reason := some "free_tier_limit_reached",
        limit := some 5, remaining := some 0, stock_count := 7 } :=
  ⟨(check_tier_limit_spec TierEnum.premium 10).1 rfl,
   (check_tier_limit_spec TierEnum.free 3).2.1 rfl (by decide),
   (check_tier_limit_spec TierEnum.free 7).2.2 rfl (by decide)⟩

/-- C2: if either database read inside `check_tier_limit` raises, the
function returns the fail-closed dict `allowed=false,
reason='tier_check_error', stock_count=0` (propagating nothing), and
`allowed=true` is only ever returned when both reads succeeded — the
check never fails open on an error. -/
theorem check_tier_limit_fails_closed (tierRes : Except String TierEnum)
    (countRes : Except String Nat) :
    ((∃ e, tierRes = Except.error e) ∨ (∃ e, countRes = Except.error e) →
      check_tier_limit tierRes countRes =
        { allowed := false, reason := some "tier_check_error", limit := none,
          remaining := none, stock_count := 0 }) ∧
    ((check_tier_limit tierRes countRes).allowed = true →
      (∃ t, tierRes = Except.ok t) ∧ (∃ n, countRes = Except.ok n)) := by
  cases tierRes with
  | error e =>
    refine ⟨fun _ => rfl, fun hall => ?_⟩
    simp [check_tier_limit] at hall
  | ok tier =>
    cases countRes with
    | error e =>
      refine ⟨fun _ => rfl, fun hall => ?_⟩
      simp [check_tier_limit] at hall
    | ok n =>
      refine ⟨fun h => ?_, fun _ => ⟨⟨tier, rfl⟩, ⟨n, rfl⟩⟩⟩
      rcases h with ⟨e, he⟩ | ⟨e, he⟩ <;> exact absurd he (by simp)

/-- Witness for C2: a failed tier lookup yields the fail-closed dict. -/
theorem check_tier_limit_fails_closed_witness :
    check_tier_limit (Except.error "db down") (Except.ok 3) =
      { allowed := false, reason := some "tier_check_error", limit := none,
        remaining := none, stock_count := 0 } :=
  (check_tier_limit_fails_closed (Except.error "db down") (Except.ok 3)).1
    (Or.inl ⟨"db down", rfl⟩)

/-- Constant input lists produce only zero returns. -/
theorem priceChanges_all_zero_of_const {l : List ℚ}
    (hc : ∀ x ∈ l, ∀ y ∈ l, x = y) : ∀ z ∈ priceChanges l, z = 0 := by
  induction l with
  | nil => simp [priceChanges]
  | cons a t ih =>
    cases t with
    | nil => simp [priceChanges]
    | cons b t2 =>
      intro z hz
      rw [priceChanges] at hz
      rcases List.mem_append.1 hz with h1 | h2
      · by_cases ha : a = 0
        · simp [ha] at h1
        · have hab : a = b := hc a (by simp) b (by simp)
          simp only [ha, ne_eq, not_false_eq_true, if_pos, List.mem_singleton] at h1
          rw [h1, ← hab, sub_self, zero_div]
      · exact ih
          (fun x hx y hy =>
            hc x (List.mem_cons_of_mem _ hx) y (List.mem_cons_of_mem _ hy)) z h2

/-- A list of zeros has zero population variance. -/
theorem popVariance_of_all_zero {xs : List ℚ} (h0 : ∀ z ∈ xs, z = 0) :
    popVariance xs = 0 := by
  have hmean : listMean xs = 0 := by
    unfold listMean
    rw [List.sum_eq_zero h0, zero_div]
  unfold popVariance
  rw [List.sum_eq_zero, zero_div]
  intro y hy
  rcases List.mem_map.1 hy with ⟨x, hx, rfl⟩
  rw [h0 x hx, hmean]
  ring

/-- Value of `calculate_volatility` on the non-degenerate path. -/
theorem calculate_volatility_eq {h : List ℚ} (h7 : ¬ h.length < 7)
    (hc : ¬ (priceChanges h).length < 2) :
    calculate_volatility h =
      max 0 (min (Real.sqrt (popVariance (priceChanges h)) / (0.1 : ℝ)) 1) := by
  unfold calculate_volatility
  rw [if_neg h7, if_neg (by omega), if_neg hc]

/-- C4: `calculate_volatility` returns exactly 0.0 when fewer than 7
price points were fetched or fewer than 2 valid returns result
(in particular for constant prices over 7 or more points, where all
returns are zero so the standard deviation is zero); otherwise it returns
the population standard deviation of the returns divided by the fixed
0.1 ceiling and capped at 1.0, and the result always lies in [0, 1]. -/
theorem calculate_volatility_spec (h : List ℚ) :
    (h.length < 7 → calculate_volatility h = 0) ∧
    ((priceChanges h).length < 2 → calculate_volatility h = 0) ∧
    ((∀ x ∈ h, ∀ y ∈ h, x = y) → calculate_volatility h = 0) ∧
    (¬ h.length < 7 → ¬ (priceChanges h).length < 2 →
      calculate_volatility h =
        max 0 (min (Real.sqrt (popVariance (priceChanges h)) / (0.1 : ℝ)) 1)) ∧
    (0 ≤ calculate_volatility h ∧ calculate_volatility h ≤ 1) := by
  have hzero : ∀ {l : List ℚ}, (∀ x ∈ l, ∀ y ∈ l, x = y) →
      calculate_volatility l = 0 := by
    intro l hconst
    by_cases h7 : l.length < 7
    · unfold calculate_volatility; rw [if_pos h7]
    · by_cases hc : (priceChanges l).length < 2
      · unfold calculate_volatility; rw [if_neg h7, if_neg (by omega), if_pos hc]
      · rw [calculate_volatility_eq h7 hc,
          popVariance_of_all_zero (priceChanges_all_zero_of_const hconst)]
        norm_num
  refine ⟨fun h7 => ?_, fun hc => ?_, hzero, calculate_volatility_eq, ?_⟩
  · unfold calculate_volatility; rw [if_pos h7]
  · by_cases h7 : h.length < 7
    · unfold calculate_volatility; rw [if_pos h7]
    · unfold calculate_volatility; rw [if_neg h7, if_neg (by omega), if_pos hc]
  · by_cases h7 : h.length < 7
    · unfold calculate_volatility; rw [if_pos h7]; norm_num
    · by_cases hc : (priceChanges h).length < 2
      · unfold calculate_volatility
        rw [if_neg h7, if_neg (by omega), if_pos hc]; norm_num
      · rw [calculate_volatility_eq h7 hc]
        constructor
        · exact le_max_left 0 _
        · exact max_le (by norm_num) (min_le_right _ 1)

/-- Witness for C4: two price points (however extreme) give volatility 0,
and seven constant prices give volatility 0. -/
theorem calculate_volatility_spec_witness :
    calculate_volatility [(100 : ℚ), 20000] = 0 ∧
    calculate_volatility [(5 : ℚ), 5, 5, 5, 5, 5, 5] = 0 :=
  ⟨(calculate_volatility_spec [(100 : ℚ), 20000]).1 (by norm_num),
   (calculate_volatility_spec [(5 : ℚ), 5, 5, 5, 5, 5, 5]).2.2.1 (by decide)⟩

/-- C3: for a valid `ml_confidence` in [0, 1], `calculate_risk_level`
computes the risk score `0.4 * volatility + 0.4 * (1 - ml_confidence) +
0.2 * market_volatility` — where `market_volatility` is the supplied
value clamped to [0, 1], or 0.5 when absent — clamps it to [0, 1], and
maps it to LOW when `≤ 0.33`, MEDIUM when in (0.33, 0.66], and HIGH
otherwise; any `ml_confidence` outside [0, 1] yields MEDIUM regardless of
the other inputs. -/
theorem calculate_risk_level_spec (h : List ℚ) (conf : ℚ) (mc : Option ℚ) :
    (¬ (0 ≤ conf ∧ conf ≤ 1) →
      calculate_risk_level h conf mc = RiskLevelEnum.medium) ∧
    (0 ≤ conf ∧ conf ≤ 1 →
      riskScore h conf mc =
        max (0 : ℝ) (min (1 : ℝ) (calculate_volatility h * (0.4 : ℝ) +
          ((1 - conf : ℚ) : ℝ) * (0.4 : ℝ) +
          ((show ℚ from match mc with
            | some v => max 0 (min 1 v)
            | none => 1 / 2) : ℝ) * (0.2 : ℝ))) ∧
      (riskScore h conf mc ≤ 0.33 →
        calculate_risk_level h conf mc = RiskLevelEnum.low) ∧
      (0.33 < riskScore h conf mc → riskScore h conf mc ≤ 0.66 →
        calculate_risk_level h conf mc = RiskLevelEnum.medium) ∧
      (0.66 < riskScore h conf mc →
        calculate_risk_level h conf mc = RiskLevelEnum.high)) := by
  constructor
  · intro hbad
    unfold calculate_risk_level
    rw [if_pos hbad]
  · intro hok
    refine ⟨rfl, fun hlow => ?_, fun hm1 hm2 => ?_, fun hhigh => ?_⟩
    · unfold calculate_risk_level
      rw [if_neg (not_not_intro hok), if_pos hlow]
    · unfold calculate_risk_level
      rw [if_neg (not_not_intro hok), if_neg (not_le.mpr hm1), if_pos hm2]
    · unfold calculate_risk_level
      rw [if_neg (not_not_intro hok), if_neg (not_le.mpr (lt_trans (by norm_num) hhigh)),
        if_neg (not_le.mpr hhigh)]

/-- Witness for C3: with no market history (volatility 0), confidence 0.5
and absent market conditions the score is 0.3 and the level is LOW; an
out-of-range confidence of 1.5 yields MEDIUM. -/
theorem calculate_risk_level_spec_witness :
    calculate_risk_level [] (1 / 2) none = RiskLevelEnum.low ∧
    calculate_risk_level [] (3 / 2) none = RiskLevelEnum.medium := by
  have hvol : calculate_volatility [] = 0 := by
    unfold calculate_volatility
    rw [if_pos (by norm_num)]
  have hscore : riskScore [] (1 / 2) none ≤ 0.33 := by
    unfold riskScore marketVolatility
    rw [hvol]
    norm_num
  exact ⟨((calculate_risk_level_spec [] (1 / 2) none).2
      ⟨by norm_num, by norm_num⟩).2.1 hscore,
    (calculate_risk_level_spec [] (3 / 2) none).1 (by norm_num)⟩

/-- C6: `upsert_sentiment_data` is idempotent on the natural key
`(stock_id, source, timestamp)`: starting from a table with no row for
either key, the first call inserts a row carrying the first score; a
second call with the same triple but a different score inserts nothing
and returns the stored row with the first score unchanged; a call with a
different timestamp for the same `(stock_id, source)` inserts a new
independent row. -/
theorem upsert_sentiment_data_spec (db : List SentimentData) (sid : Nat)
    (src : String) (ts ts' : Int) (s₁ s₂ s₃ : ℚ) (id₁ id₂ id₃ : Nat)
    (h0 : db.filter (sentimentKeyMatches sid src ts) = [])
    (h0' : db.filter (sentimentKeyMatches sid src ts') = [])
    (hts : ts' ≠ ts) :
    upsert_sentiment_data db id₁ sid s₁ src ts =
      some (⟨id₁, sid, s₁, src, ts⟩, db ++ [⟨id₁, sid, s₁, src, ts⟩]) ∧
    upsert_sentiment_data (db ++ [⟨id₁, sid, s₁, src, ts⟩]) id₂ sid s₂ src ts =
      some (⟨id₁, sid, s₁, src, ts⟩, db ++ [⟨id₁, sid, s₁, src, ts⟩]) ∧
    upsert_sentiment_data (db ++ [⟨id₁, sid, s₁, src, ts⟩]) id₃ sid s₃ src ts' =
      some (⟨id₃, sid, s₃, src, ts'⟩,
        (db ++ [⟨id₁, sid, s₁, src, ts⟩]) ++ [⟨id₃, sid, s₃, src, ts'⟩]) := by
  have hkey : sentimentKeyMatches sid src ts ⟨id₁, sid, s₁, src, ts⟩ = true := by
    simp [sentimentKeyMatches]
  have hkey' : sentimentKeyMatches sid src ts' ⟨id₁, sid, s₁, src, ts⟩ = false := by
    simp [sentimentKeyMatches]
    exact fun h => hts h.symm
  have hex0 : exists_sentiment_record db sid src ts = false := by
    simp [exists_sentiment_record, List.countP_eq_length_filter, h0]
  have hfil : (db ++ [(⟨id₁, sid, s₁, src, ts⟩ : SentimentData)]).filter
      (sentimentKeyMatches sid src ts) = [⟨id₁, sid, s₁, src, ts⟩] := by
    rw [List.filter_append, h0]
    simp [hkey]
  have hex1 : exists_sentiment_record (db ++ [(⟨id₁, sid, s₁, src, ts⟩ : SentimentData)])
      sid src ts = true := by
    simp [exists_sentiment_record, List.countP_eq_length_filter, hfil]
  have hfil' : (db ++ [(⟨id₁, sid, s₁, src, ts⟩ : SentimentData)]).filter
      (sentimentKeyMatches sid src ts') = [] := by
    rw [List.filter_append, h0']
    simp [hkey']
  have hex' : exists_sentiment_record (db ++ [(⟨id₁, sid, s₁, src, ts⟩ : SentimentData)])
      sid src ts' = false := by
    simp [exists_sentiment_record, List.countP_eq_length_filter, hfil']
  refine ⟨?_, ?_, ?_⟩
  · rw [upsert_sentiment_data, if_neg (by simp [hex0])]
    rfl
  · rw [upsert_sentiment_data, if_pos (by simp [hex1]), hfil]
  · rw [upsert_sentiment_data, if_neg (by simp [hex'])]
    rfl

/-- Witness for C6: from the empty table, upserting score 0.5 at
timestamp 0, then score 0.7 at the same key, keeps one row with score
0.5; timestamp 1 creates a second row. -/
theorem upsert_sentiment_data_spec_witness :
    upsert_sentiment_data [] 1 10 (1/2) "news" 0 =
      some (⟨1, 10, 1/2, "news", 0⟩, [⟨1, 10, 1/2, "news", 0⟩]) ∧
    upsert_sentiment_data [⟨1, 10, 1/2, "news", 0⟩] 2 10 (7/10) "news" 0 =
      some (⟨1, 10, 1/2, "news", 0⟩, [⟨1, 10, 1/2, "news", 0⟩]) ∧
    upsert_sentiment_data [⟨1, 10, 1/2, "news", 0⟩] 3 10 (7/10) "news" 1 =
      some (⟨3, 10, 7/10, "news", 1⟩,
        [⟨1, 10, 1/2, "news", 0⟩, ⟨3, 10, 7/10, "news", 1⟩]) := by
  have h := upsert_sentiment_data_spec [] 10 "news" 0 1 (1/2) (7/10) (7/10) 1 2 3
    (by decide) (by decide) (by decide)
  simpa using h

/-- C7: stock writes store the symbol upper-cased and lookups compare
upper-cased on both sides, so after upserting a symbol under one casing,
looking it up under any other casing of the same symbol returns that
single row, and a second upsert under a different casing updates the
existing row in place (same id, same stored upper-cased symbol, new
company data) instead of creating a duplicate. -/
theorem upsert_stock_case_insensitive (db : List Stock)
    (sym₁ sym₂ name₁ name₂ : String) (sec₁ sec₂ : Option String)
    (rank₁ rank₂ : Option Nat) (id₁ id₂ : Nat)
    (hsym : pyUpper sym₁ = pyUpper sym₂)
    (hnew : ∀ s ∈ db, pyUpper s.symbol ≠ pyUpper sym₁) :
    upsert_stock db id₁ sym₁ name₁ sec₁ rank₁ =
      (⟨id₁, pyUpper sym₁, name₁, sec₁, rank₁⟩,
        db ++ [⟨id₁, pyUpper sym₁, name₁, sec₁, rank₁⟩]) ∧
    get_stock_by_symbol (db ++ [⟨id₁, pyUpper sym₁, name₁, sec₁, rank₁⟩]) sym₂ =
      some ⟨id₁, pyUpper sym₁, name₁, sec₁, rank₁⟩ ∧
    upsert_stock (db ++ [⟨id₁, pyUpper sym₁, name₁, sec₁, rank₁⟩])
        id₂ sym₂ name₂ sec₂ rank₂ =
      (⟨id₁, pyUpper sym₁, name₂,
          (match sec₂ with | some s => some s | none => sec₁),
          (match rank₂ with | some r => some r | none => rank₁)⟩,
        db ++ [⟨id₁, pyUpper sym₁, name₂,
          (match sec₂ with | some s => some s | none => sec₁),
          (match rank₂ with | some r => some r | none => rank₁)⟩]) := by
  have hfind₀ : get_stock_by_symbol db sym₁ = none := by
    rw [get_stock_by_symbol, List.find?_eq_none]
    intro s hs
    simp [hnew s hs]
  have hpred : (pyUpper (⟨id₁, pyUpper sym₁, name₁, sec₁, rank₁⟩ : Stock).symbol ==
      pyUpper sym₂) = true := by
    simp only [beq_iff_eq]
    rw [← hsym]
    exact pyUpper_idem sym₁
  have hdbnone : db.find? (fun s => pyUpper s.symbol == pyUpper sym₂) = none := by
    rw [List.find?_eq_none]
    intro s hs
    rw [← hsym]
    simp [hnew s hs]
  have hfind₂ : get_stock_by_symbol
      (db ++ [(⟨id₁, pyUpper sym₁, name₁, sec₁, rank₁⟩ : Stock)]) sym₂ =
      some ⟨id₁, pyUpper sym₁, name₁, sec₁, rank₁⟩ := by
    rw [get_stock_by_symbol, List.find?_append, hdbnone]
    simp [List.find?, hpred]
  have hne : ∀ s ∈ db, s ≠ (⟨id₁, pyUpper sym₁, name₁, sec₁, rank₁⟩ : Stock) := by
    intro s hs he
    apply hnew s hs
    rw [he]
    exact pyUpper_idem sym₁
  refine ⟨?_, hfind₂, ?_⟩
  · simp [upsert_stock, hfind₀, create_stock]
  · rw [upsert_stock, hfind₂]
    have hcong : ∀ s ∈ db,
        (if s = (⟨id₁, pyUpper sym₁, name₁, sec₁, rank₁⟩ : Stock) then
          (⟨id₁, pyUpper sym₁, name₂,
            (match sec₂ with | some s => some s | none => sec₁),
            (match rank₂ with | some r => some r | none => rank₁)⟩ : Stock)
        else s) = id s := by
      intro s hs
      rw [if_neg (hne s hs)]
      rfl
    simp only [List.map_append, List.map_congr_left hcong, List.map_id,
      List.map_cons, List.map_nil, if_pos]

/-- Witness for C7: upserting "aapl" stores "AAPL"; the lookup "AaPl"
finds it; upserting "AaPl" with new company data updates that row in
place. -/
theorem upsert_stock_case_insensitive_witness :
    upsert_stock [] 1 "aapl" "Apple" none (some 3) =
      (⟨1, "AAPL", "Apple", none, some 3⟩, [⟨1, "AAPL", "Apple", none, some 3⟩]) ∧
    get_stock_by_symbol [⟨1, "AAPL", "Apple", none, some 3⟩] "AaPl" =
      some ⟨1, "AAPL", "Apple", none, some 3⟩ ∧
    upsert_stock [⟨1, "AAPL", "Apple", none, some 3⟩] 2 "AaPl" "Apple Inc."
        (some "Tech") none =
      (⟨1, "AAPL", "Apple Inc.", some "Tech", some 3⟩,
        [⟨1, "AAPL", "Apple Inc.", some "Tech", some 3⟩]) := by
  have e : pyUpper "aapl" = "AAPL" := by decide
  have h := upsert_stock_case_insensitive [] "aapl" "AaPl" "Apple" "Apple Inc."
    none (some "Tech") (some 3) none 1 2 (by decide) (by simp)
  rw [e] at h
  simpa using h

/-- C8: the keyword sentiment score is 0.0 when both the positive and
negative occurrence totals over the lowercased text are zero, and
otherwise equals `(pos - neg) / max(pos + neg, 1)` clamped to [-1, 1];
the returned value always lies in [-1, 1]. -/
theorem keyword_sentiment_score_spec (text : String) :
    (posCount (pyLower text).data = 0 ∧ negCount (pyLower text).data = 0 →
      _keyword_sentiment_score text = 0) ∧
    (¬ (posCount (pyLower text).data = 0 ∧ negCount (pyLower text).data = 0) →
      _keyword_sentiment_score text =
        max (-1) (min 1 (((posCount (pyLower text).data : ℚ) -
          (negCount (pyLower text).data : ℚ)) /
          ((max (posCount (pyLower text).data + negCount (pyLower text).data) 1 : ℕ) : ℚ)))) ∧
    (-1 ≤ _keyword_sentiment_score text ∧ _keyword_sentiment_score text ≤ 1) := by
  refine ⟨fun h => ?_, fun h => ?_, ?_⟩
  · rw [_keyword_sentiment_score]
    exact if_pos h
  · rw [_keyword_sentiment_score]
    exact if_neg h
  · rw [_keyword_sentiment_score]
    by_cases h : posCount (pyLower text).data = 0 ∧ negCount (pyLower text).data = 0
    · rw [if_pos h]
      norm_num
    · rw [if_neg h]
      exact ⟨le_max_left _ _, max_le (by norm_num) (min_le_left _ _)⟩

/-- Witness for C8: the single positive keyword "gain" scores 1, and a
keyword-free text scores 0. -/
theorem keyword_sentiment_score_spec_witness :
    _keyword_sentiment_score "gain" = 1 ∧ _keyword_sentiment_score "hello" = 0 := by
  constructor
  · have h := (keyword_sentiment_score_spec "gain").2.1 (by decide)
    rw [h]
    have hp : posCount (pyLower "gain").data = 1 := by decide
    have hn : negCount (pyLower "gain").data = 0 := by decide
    rw [hp, hn]
    norm_num
  · exact (keyword_sentiment_score_spec "hello").1 (by decide)

/-- C10: keyword counting is by substring occurrence over the lowercased
text, not whole-word matching: "download" contains the negative keyword
"down" (and no positive keyword), scoring -1.0, while "upgrade" contains
the positive keyword "up" (and no negative keyword), scoring 1.0. -/
theorem keyword_sentiment_substring_matching :
    countOcc "down".data (pyLower "download").data = 1 ∧
    posCount (pyLower "download").data = 0 ∧
    negCount (pyLower "download").data = 1 ∧
    _keyword_sentiment_score "download" = -1 ∧
    countOcc "up".data (pyLower "upgrade").data = 1 ∧
    posCount (pyLower "upgrade").data = 1 ∧
    negCount (pyLower "upgrade").data = 0 ∧
    _keyword_sentiment_score "upgrade" = 1 := by
  have hp : posCount (pyLower "download").data = 0 := by decide
  have hn : negCount (pyLower "download").data = 1 := by decide
  have hp' : posCount (pyLower "upgrade").data = 1 := by decide
  have hn' : negCount (pyLower "upgrade").data = 0 := by decide
  refine ⟨by decide, hp, hn, ?_, by decide, hp', hn', ?_⟩
  · simp only [_keyword_sentiment_score, hp, hn]
    norm_num
  · simp only [_keyword_sentiment_score, hp', hn']
    norm_num

/-- C9: with a non-empty account e-mail, `validate_password` accepts a
password exactly when no policy rule is violated (at least 8 characters,
does not contain the e-mail, not all-alphabetic, not all-numeric); each
single violated rule surfaces its own message, and the four messages are
pairwise distinct. -/
theorem validate_password_spec (password email : String) (hemail : email ≠ "") :
    ((validate_password password email = none ↔
      (¬ password.length < 8 ∧ pyInStr email password = false ∧
        pyIsAlpha password = false ∧ pyIsNumeric password = false)) ∧
     (password.length < 8 →
      validate_password password email =
        some "Password should be at least 8 characters") ∧
     (¬ password.length < 8 → pyInStr email password = true →
      validate_password password email =
        some "Password should not contain e-mail") ∧
     (¬ password.length < 8 → pyInStr email password = false →
      pyIsAlpha password = true →
      validate_password password email =
        some "Password should contain at least one number or special characters(@#*)") ∧
     (¬ password.length < 8 → pyInStr email password = false →
      pyIsAlpha password = false → pyIsNumeric password = true →
      validate_password password email =
        some "Password should not contain only numeric values")) ∧
    ["Password should be at least 8 characters",
     "Password should not contain e-mail",
     "Password should contain at least one number or special characters(@#*)",
     "Password should not contain only numeric values"].Nodup := by
  refine ⟨?_, by decide⟩
  by_cases h1 : password.length < 8 <;>
    by_cases h2 : pyInStr email password = true <;>
      by_cases h3 : pyIsAlpha password = true <;>
        by_cases h4 : pyIsNumeric password = true <;>
          simp [validate_password, hemail, List.find?, h1, h2, h3, h4]

/-- Witness for C9: with e-mail "user@example.com", the password
"ValidPass123!" is accepted; "short" is rejected with the length
message; "passwordonlyletters" as alpha-only; "12345678" as
numeric-only; "xuser@example.com1" for containing the e-mail. -/
theorem validate_password_spec_witness :
    validate_password "ValidPass123!" "user@example.com" = none ∧
    validate_password "short" "user@example.com" =
      some "Password should be at least 8 characters" ∧
    validate_password "passwordonlyletters" "user@example.com" =
      some "Password should contain at least one number or special characters(@#*)" ∧
    validate_password "12345678" "user@example.com" =
      some "Password should not contain only numeric values" ∧
    validate_password "xuser@example.com1" "user@example.com" =
      some "Password should not contain e-mail" := by
  refine ⟨?_, ?_, ?_, ?_, ?_⟩
  · exact ((validate_password_spec "ValidPass123!" "user@example.com"
      (by decide)).1.1).mpr (by refine ⟨by decide, by decide, by decide, by decide⟩)
  · exact (validate_password_spec "short" "user@example.com"
      (by decide)).1.2.1 (by decide)
  · exact (validate_password_spec "passwordonlyletters" "user@example.com"
      (by decide)).1.2.2.2.1 (by decide) (by decide) (by decide)
  · exact (validate_password_spec "12345678" "user@example.com"
      (by decide)).1.2.2.2.2 (by decide) (by decide) (by decide) (by decide)
  · exact (validate_password_spec "xuser@example.com1" "user@example.com"
      (by decide)).1.2.2.1 (by decide) (by decide)
